import Mathlib

/-! # Secret record store: data model, record store (DAO), secret service, decryption cache

Shallow embedding of

* `pkg/models/secrets.go` (records, commands, queries, the three sentinel errors),
* `pkg/services/sqlstore/migrations/secretstore_mig.go` (the table declaration),
* `pkg/services/sqlstore/secretstore.go` (the five store operations),
* `pkg/services/secretstore/service.go` (the service facade and its decryption cache).

Conventions of the embedding.

* Go `int64` / `int` values are `Int`; the handlers compare them and do no arithmetic on them.
* `time.Time` is an instant, counted in nanoseconds (`Int`); `time.Time.Equal` is equality of
  instants. Every
  `time.Now()` call of the source is an explicit clock-reading argument of the embedded function,
  one argument per call, in the order of the calls.
* `map[string]string` and `map[string][]byte` are association lists.
* A pointer argument that the Go code writes through (`cmd.Result = s`) becomes a value that is
  passed in and returned; `*Secret` fields are `Option Secret` (`nil` is `none`).
* A handler either returns `nil`, returns an error, or panics (Go runtime panic): `Outcome`.
* The relational engine reached through xorm is a value of type `DB`: the rows of the table
  declared by the migration, the auto-increment counter of its primary key, and whether the
  engine enforces the declared `VARCHAR(40)` length. The model is that of a functioning engine:
  a statement fails only for a reason visible in the statement and the state (missing table,
  unique index, column length). Every statement sent to the engine is recorded in a trace.
  A `DATETIME` column keeps a timestamp at second precision, as xorm writes it: the row read
  back carries the instant cut to the full second, while the struct the handler holds in memory
  keeps the clock reading.
-/

namespace SecretStore

/-! ## `pkg/models/secrets.go` -/

/-- An instant in nanoseconds, as `time.Time` compared with `Equal`. -/
abbrev Time := Int

/-- Go `map[string]string`: plaintext secure JSON data. -/
abbrev PlainMap := List (String × String)

/-- Go `map[string][]byte`: encrypted secure JSON data. -/
abbrev CipherMap := List (String × List Nat)

/-- Errors a handler can return: the three sentinels of `models/secrets.go`, an error of the
crypto collaborator, and an error of the storage engine (`unique` tells whether the dialect
classifies it as a unique-constraint violation, `msg` is the dialect's error message). -/
inductive Error where
  | ErrSecretNotFound
  | ErrSecretEntityUidExists
  | ErrSecretIdentifierNotSet
  | crypto (msg : String)
  | storage (unique : Bool) (msg : String)
  deriving DecidableEq, Repr

/-- How a Go call ends: `return nil`, `return err`, or a runtime panic. -/
inductive Outcome where
  | ok
  | err (e : Error)
  | panic
  deriving DecidableEq, Repr

/-- The record `models.Secret`. -/
structure Secret where
  Id : Int
  OrgId : Int
  EntityUid : String
  SecureJsonData : CipherMap
  Created : Time
  Updated : Time
  deriving DecidableEq, Repr

/-- The zero value `models.Secret{}`. -/
def Secret.zero : Secret :=
  { Id := 0, OrgId := 0, EntityUid := "", SecureJsonData := [], Created := 0, Updated := 0 }

/-- The command `models.AddSecretCommand`. -/
structure AddSecretCommand where
  EntityUid : String
  SecureJsonData : PlainMap
  OrgId : Int
  EncryptedSecureJsonData : CipherMap
  Result : Option Secret
  deriving DecidableEq, Repr

/-- The command `models.UpdateSecretCommand`. -/
structure UpdateSecretCommand where
  EntityUid : String
  SecureJsonData : PlainMap
  OrgId : Int
  Id : Int
  EncryptedSecureJsonData : CipherMap
  Result : Option Secret
  deriving DecidableEq, Repr

/-- The command `models.DeleteSecretCommand`. -/
structure DeleteSecretCommand where
  ID : Int
  OrgID : Int
  EntityUID : String
  DeletedSecretsCount : Int
  deriving DecidableEq, Repr

/-- The query `models.GetSecretsQuery` (the `User` field is not read by the store). -/
structure GetSecretsQuery where
  OrgId : Int
  SecretLimit : Int
  Result : List Secret
  deriving DecidableEq, Repr

/-- The query `models.GetSecretQuery`. -/
structure GetSecretQuery where
  Id : Int
  OrgId : Int
  EntityUid : String
  Result : Option Secret
  deriving DecidableEq, Repr

/-- Lifecycle events handed to `publishAfterCommit` (`events.SecretCreated`,
`events.SecretDeleted`), with the fields the store fills in. -/
inductive Event where
  | SecretCreated (Timestamp : Time) (EntityUID : String) (ID : Int) (OrgID : Int)
  | SecretDeleted (Timestamp : Time) (EntityUID : String) (ID : Int) (OrgID : Int)
  deriving DecidableEq, Repr

/-! ## `migrations/secretstore_mig.go` and the engine behind xorm -/

/-- The table name of `tableV1` in `addSecretStoreMigration`: `Name: "secret"`. -/
def tableV1Name : String := "secret"

/-- The declared length of column `entity_uid`: `Type: DB_NVarchar, Length: 40`. -/
def entityUidLength : Nat := 40

/-- The table xorm addresses for a `models.Secret` bean: the struct name in snake case. -/
def Secret.tableName : String := "secret"

/-- An equality condition `col = ?` on one of the three key columns. -/
inductive Cond where
  | id (v : Int)
  | org_id (v : Int)
  | entity_uid (v : String)
  deriving DecidableEq, Repr

/-- A statement sent to the engine. -/
inductive Stmt where
  | begin
  | commit
  | rollback
  | select (table : String) (conds : List Cond) (ascById : Bool) (limit : Option Nat)
  | insert (table : String) (row : Secret)
  | delete (table : String) (conds : List Cond)
  deriving DecidableEq, Repr

/-- The database: the rows of table `secret` in physical order, the last value handed out by the
auto-increment primary key, and whether the engine rejects an over-long `entity_uid`. -/
structure DB where
  rows : List Secret
  lastId : Int
  strict : Bool
  deriving DecidableEq, Repr

/-- The database right after the migration: no rows. -/
def DB.empty : DB := { rows := [], lastId := 0, strict := false }

/-- Does row `r` satisfy the condition? -/
def Cond.holds (r : Secret) : Cond → Bool
  | .id v => r.Id == v
  | .org_id v => r.OrgId == v
  | .entity_uid v => r.EntityUid == v

/-- Does row `r` satisfy every condition of a `WHERE a=? and b=?` clause? -/
def matchAll (conds : List Cond) (r : Secret) : Bool :=
  conds.all (Cond.holds r)

/-- A session on the database (`*DBSession`): the current state of the database, the statements
sent so far, and the events queued by `publishAfterCommit`. -/
structure DBSession where
  db : DB
  stmts : List Stmt
  events : List Event
  deriving DecidableEq, Repr

/-- Record a statement in the session's trace. -/
def DBSession.send (sess : DBSession) (s : Stmt) : DBSession :=
  { sess with stmts := sess.stmts ++ [s] }

/-- The error of a statement that names a table the database does not have. -/
def noSuchTable (table : String) : Error :=
  .storage false ("no such table: " ++ table)

/-- The conditions xorm derives from a bean: one `col = ?` per key field that is not the zero
value of its type (at every call site of the source the other fields of the bean are zero). -/
def beanConds (bean : Secret) : List Cond :=
  (if bean.Id ≠ 0 then [Cond.id bean.Id] else []) ++
  (if bean.OrgId ≠ 0 then [Cond.org_id bean.OrgId] else []) ++
  (if bean.EntityUid ≠ "" then [Cond.entity_uid bean.EntityUid] else [])

/-- The xorm call `sess.Get(bean)`: `SELECT ... FROM secret WHERE <beanConds> LIMIT 1`. Returns
`has`, the bean (overwritten with the row when one is found), the error, and the session. -/
def DBSession.Get (sess : DBSession) (bean : Secret) : Bool × Secret × Option Error × DBSession :=
  let conds := beanConds bean
  let sess1 := sess.send (.select Secret.tableName conds false (some 1))
  if Secret.tableName = tableV1Name then
    match sess.db.rows.find? (matchAll conds) with
    | some r => (true, r, none, sess1)
    | none => (false, bean, none, sess1)
  else (false, bean, some (noSuchTable Secret.tableName), sess1)

/-- The number of clock units (nanoseconds) in one second. -/
def nanosPerSecond : Int := 1000000000

/-- The value a `DB_DateTime` column keeps for an instant: xorm writes the timestamp at second
precision, so the instant is cut to the full second at or before it. -/
def datetime (t : Time) : Time := t - t % nanosPerSecond

/-- The row as the table keeps it: `created` and `updated` are `DB_DateTime` columns. -/
def Secret.stored (r : Secret) : Secret :=
  { r with Created := datetime r.Created, Updated := datetime r.Updated }

/-- The message of the engine when the unique index on `(org_id, entity_uid)` rejects a row. -/
def uniqueViolation : Error :=
  .storage true "UNIQUE constraint failed: secret.org_id, secret.entity_uid"

/-- The xorm call `sess.Insert(bean)` for a bean whose `Id` is zero (the only use in the source):
`INSERT INTO secret (org_id, entity_uid, secure_json_data, created, updated) VALUES (...)`.
The engine checks the column length (when strict) and the unique index, assigns the next
auto-increment id and keeps the row with its timestamps at column precision; xorm writes the
id back into the bean, whose other fields stay as they are in memory. -/
def DBSession.Insert (sess : DBSession) (bean : Secret) : Secret × Option Error × DBSession :=
  let sess1 := sess.send (.insert Secret.tableName bean)
  if Secret.tableName = tableV1Name then
    if sess.db.strict && decide (entityUidLength < bean.EntityUid.length) then
      (bean, some (.storage false "value too long for column entity_uid"), sess1)
    else if sess.db.rows.any (fun r => r.OrgId == bean.OrgId && r.EntityUid == bean.EntityUid) then
      (bean, some uniqueViolation, sess1)
    else
      let id := sess.db.lastId + 1
      let row := { bean with Id := id }
      (row, none,
        { sess1 with db := { sess.db with rows := sess.db.rows ++ [row.stored], lastId := id } })
  else (bean, some (noSuchTable Secret.tableName), sess1)

/-- The xorm call `sess.Exec(sql, args...)` for a statement `DELETE FROM <table> WHERE ...`.
Returns the `sql.Result` (`none` is the nil interface returned together with an error; `some n`
carries the number of rows affected), the error, and the session. -/
def DBSession.Exec (sess : DBSession) (table : String) (conds : List Cond) :
    Option Int × Option Error × DBSession :=
  let sess1 := sess.send (.delete table conds)
  if table = tableV1Name then
    let keep := sess.db.rows.filter (fun r => !matchAll conds r)
    (some ((sess.db.rows.length : Int) - keep.length), none,
      { sess1 with db := { sess.db with rows := keep } })
  else (none, some (noSuchTable table), sess1)

/-- The xorm call `sess.Where("org_id=?", orgId).Asc("id").Find(&result)` with an optional
`Limit(n, 0)`: `SELECT ... FROM secret WHERE org_id=? ORDER BY id ASC [LIMIT n]`. The source
sets a limit only when it is positive. -/
def DBSession.Find (sess : DBSession) (orgId : Int) (limit : Option Int) :
    List Secret × Option Error × DBSession :=
  let sess1 := sess.send (.select Secret.tableName [Cond.org_id orgId] true (limit.map Int.toNat))
  if Secret.tableName = tableV1Name then
    let sorted := (sess.db.rows.filter (fun r => r.OrgId == orgId)).insertionSort
      (fun a b => a.Id ≤ b.Id)
    match limit with
    | none => (sorted, none, sess1)
    | some n => (sorted.take n.toNat, none, sess1)
  else ([], some (noSuchTable Secret.tableName), sess1)

/-- The xorm call `session.Update(bean)` on a possibly nil `*xorm.Session`. The method reads a
field of its receiver first, so a nil receiver is a nil-pointer dereference: `none` is the panic.
On a live session, without `Where` or `ID`, the statement is
`UPDATE secret SET <non-zero non-key columns>` over every row; returns the affected count. -/
def Session.Update (session : Option DBSession) (bean : Secret) :
    Option (Int × Option Error × DBSession) :=
  match session with
  | none => none
  | some sess =>
    let set := fun (r : Secret) =>
      { r with
        OrgId := if bean.OrgId ≠ 0 then bean.OrgId else r.OrgId
        EntityUid := if bean.EntityUid ≠ "" then bean.EntityUid else r.EntityUid
        SecureJsonData := if bean.SecureJsonData ≠ [] then bean.SecureJsonData
          else r.SecureJsonData
        Updated := if bean.Updated ≠ 0 then datetime bean.Updated else r.Updated }
    some ((sess.db.rows.length : Int), none,
      { sess with db := { sess.db with rows := sess.db.rows.map set } })

/-! ## Sessions and transactions (`sqlstore` package) -/

/-- What a handler call leaves behind: how it ended, the command or query after the call, the
database after the call, the statements sent to the engine, the events queued with
`publishAfterCommit`, and the events released to the bus. -/
structure Run (C : Type) where
  outcome : Outcome
  cmd : C
  db : DB
  stmts : List Stmt
  scheduled : List Event
  published : List Event

/-- A handler that returns before it opens a session. -/
def Run.returned {C : Type} (o : Outcome) (c : C) (db : DB) : Run C :=
  { outcome := o, cmd := c, db := db, stmts := [], scheduled := [], published := [] }

/-- Modelled from the spec: the method `publishAfterCommit` of `DBSession` is not among the
sources; the store "schedules" an event "for post-commit delivery", so the event is appended to
the queue of the session. -/
def DBSession.publishAfterCommit (sess : DBSession) (e : Event) : DBSession :=
  { sess with events := sess.events ++ [e] }

/-- Modelled from the spec: `WithDbSession` is not among the sources; the callback runs on a fresh
session, outside a transaction, and its error is returned to the caller. Opening and closing the
session sends no statement. -/
def WithDbSession {C : Type} (db : DB) (callback : DBSession → Outcome × C × DBSession) : Run C :=
  match callback { db := db, stmts := [], events := [] } with
  | (o, c, sess) =>
    { outcome := o, cmd := c, db := sess.db, stmts := sess.stmts, scheduled := sess.events,
      published := [] }

/-- Modelled from the spec: `WithTransactionalDbSession` is not among the sources; "all three
mutating operations run under a single transaction", "transactions roll back on any non-nil
error from the body", "events are released to the bus after the transaction commits; if the
transaction aborts no event is delivered". A panic in the body unwinds through the wrapper, whose
deferred close of the session discards the open transaction. -/
def WithTransactionalDbSession {C : Type} (db : DB)
    (callback : DBSession → Outcome × C × DBSession) : Run C :=
  match callback { db := db, stmts := [Stmt.begin], events := [] } with
  | (Outcome.ok, c, sess) =>
    { outcome := .ok, cmd := c, db := sess.db, stmts := sess.stmts ++ [Stmt.commit],
      scheduled := sess.events, published := sess.events }
  | (o, c, sess) =>
    { outcome := o, cmd := c, db := db, stmts := sess.stmts ++ [Stmt.rollback],
      scheduled := sess.events, published := [] }

/-- The dialect call `dialect.IsUniqueConstraintViolation(err)`. -/
def IsUniqueConstraintViolation : Error → Bool
  | .storage unique _ => unique
  | _ => false

/-- The dialect call `dialect.ErrorMessage(err)`. -/
def ErrorMessage : Error → String
  | .storage _ msg => msg
  | .crypto msg => msg
  | _ => ""

/-- Go `strings.Contains(s, substr)`. -/
def stringsContains (s substr : String) : Bool :=
  s.data.tails.any (fun t => substr.data.isPrefixOf t)

/-! ## `pkg/services/sqlstore/secretstore.go` -/

/-- The store handler `SQLStore.GetSecret`. -/
def SQLStore.GetSecret (db : DB) (query : GetSecretQuery) : Run GetSecretQuery :=
  WithDbSession db (fun sess =>
    if query.OrgId = 0 ∨ (query.Id = 0 ∧ query.EntityUid.length = 0) then
      (.err .ErrSecretIdentifierNotSet, query, sess)
    else
      let secret : Secret :=
        { Secret.zero with EntityUid := query.EntityUid, OrgId := query.OrgId, Id := query.Id }
      match sess.Get secret with
      | (_, _, some err, sess) => (.err err, query, sess)
      | (false, _, none, sess) => (.err .ErrSecretNotFound, query, sess)
      | (true, secret, none, sess) => (.ok, { query with Result := some secret }, sess))

/-- The store handler `SQLStore.GetSecrets`. -/
def SQLStore.GetSecrets (db : DB) (query : GetSecretsQuery) : Run GetSecretsQuery :=
  WithDbSession db (fun dbSess =>
    let limit : Option Int := if query.SecretLimit ≤ 0 then none else some query.SecretLimit
    let query := { query with Result := [] }
    match dbSess.Find query.OrgId limit with
    | (_, some err, sess) => (.err err, query, sess)
    | (found, none, sess) => (.ok, { query with Result := query.Result ++ found }, sess))

/-- The store handler `SQLStore.DeleteSecret`; `now` is the clock reading of the event. The
statement text `DELETE FROM secrets WHERE a=? and b=?` with its parameters is the table name
`secrets` with the two conditions. -/
def SQLStore.DeleteSecret (db : DB) (now : Time) (cmd : DeleteSecretCommand) :
    Run DeleteSecretCommand :=
  let exec := fun (table : String) (conds : List Cond) =>
    WithTransactionalDbSession db (fun sess =>
      match sess.Exec table conds with
      | (none, _, sess) => (Outcome.panic, cmd, sess)
      | (some affected, err, sess) =>
        let cmd := { cmd with DeletedSecretsCount := affected }
        let sess := sess.publishAfterCommit (.SecretDeleted now cmd.EntityUID cmd.ID cmd.OrgID)
        match err with
        | some e => (Outcome.err e, cmd, sess)
        | none => (Outcome.ok, cmd, sess))
  if cmd.OrgID = 0 then
    Run.returned (.err .ErrSecretIdentifierNotSet) cmd db
  else if cmd.ID ≠ 0 then
    exec "secrets" [Cond.id cmd.ID, Cond.org_id cmd.OrgID]
  else if cmd.EntityUID ≠ "" then
    exec "secrets" [Cond.entity_uid cmd.EntityUID, Cond.org_id cmd.OrgID]
  else
    Run.returned (.err .ErrSecretIdentifierNotSet) cmd db

/-- The store handler `SQLStore.AddSecret`; `tCreated`, `tUpdated`, `tEvent` are the three clock
readings, in the order the source takes them. -/
def SQLStore.AddSecret (db : DB) (tCreated tUpdated tEvent : Time) (cmd : AddSecretCommand) :
    Run AddSecretCommand :=
  WithTransactionalDbSession db (fun sess =>
    let existing : Secret := { Secret.zero with OrgId := cmd.OrgId, EntityUid := cmd.EntityUid }
    match sess.Get existing with
    | (true, _, _, sess) => (.err .ErrSecretEntityUidExists, cmd, sess)
    | (false, _, _, sess) =>
      let s : Secret :=
        { Secret.zero with
          OrgId := cmd.OrgId
          EntityUid := cmd.EntityUid
          SecureJsonData := cmd.EncryptedSecureJsonData
          Created := tCreated
          Updated := tUpdated }
      match sess.Insert s with
      | (_, some err, sess) =>
        if IsUniqueConstraintViolation err
            && stringsContains (ErrorMessage err).toLower "entity_uid" then
          (.err .ErrSecretEntityUidExists, cmd, sess)
        else (.err err, cmd, sess)
      | (s, none, sess) =>
        let cmd := { cmd with Result := some s }
        let sess := sess.publishAfterCommit (.SecretCreated tEvent cmd.EntityUid s.Id cmd.OrgId)
        (.ok, cmd, sess))

/-- The declaration `var updateSession *xorm.Session` of `UpdateSecret`: never assigned, so the
nil pointer. -/
def updateSession : Option DBSession := none

/-- The store handler `SQLStore.UpdateSecret`; `now` is the clock reading for `Updated`. -/
def SQLStore.UpdateSecret (db : DB) (now : Time) (cmd : UpdateSecretCommand) :
    Run UpdateSecretCommand :=
  WithTransactionalDbSession db (fun sess =>
    let s : Secret :=
      { Secret.zero with
        Id := cmd.Id
        OrgId := cmd.OrgId
        EntityUid := cmd.EntityUid
        SecureJsonData := cmd.EncryptedSecureJsonData
        Updated := now }
    match Session.Update updateSession s with
    | none => (Outcome.panic, cmd, sess)
    | some (_, some err, _) => (.err err, cmd, sess)
    | some (affected, none, _) =>
      if affected = 0 then (.err .ErrSecretNotFound, cmd, sess)
      else (.ok, { cmd with Result := some s }, sess))

/-! ## `pkg/services/secretstore/service.go` -/

/-- The crypto collaborator (`secrets.Service`), as the two calls the service makes; each
returns the Go pair of a value and an error. -/
structure SecretsService where
  EncryptJsonData : PlainMap → CipherMap × Option Error
  DecryptJsonData : CipherMap → PlainMap × Option Error

/-- The cache entry `cachedDecryptedJSON`. -/
structure cachedDecryptedJSON where
  updated : Time
  json : PlainMap
  deriving DecidableEq, Repr

/-- The map `secureJSONDecryptionCache.cache`, of type `map[int64]cachedDecryptedJSON`. -/
abbrev Cache := Int → Option cachedDecryptedJSON

/-- The cache made by `ProvideService`: `make(map[int64]cachedDecryptedJSON)`. -/
def Cache.empty : Cache := fun _ => none

/-- The service method `Service.GetSecret`. -/
def Service.GetSecret (db : DB) (query : GetSecretQuery) : Run GetSecretQuery :=
  SQLStore.GetSecret db query

/-- The service method `Service.GetSecrets`. -/
def Service.GetSecrets (db : DB) (query : GetSecretsQuery) : Run GetSecretsQuery :=
  SQLStore.GetSecrets db query

/-- The service method `Service.AddSecret`. -/
def Service.AddSecret (crypto : SecretsService) (db : DB) (tCreated tUpdated tEvent : Time)
    (cmd : AddSecretCommand) : Run AddSecretCommand :=
  match crypto.EncryptJsonData cmd.SecureJsonData with
  | (enc, some err) => Run.returned (.err err) { cmd with EncryptedSecureJsonData := enc } db
  | (enc, none) =>
    SQLStore.AddSecret db tCreated tUpdated tEvent { cmd with EncryptedSecureJsonData := enc }

/-- The service method `Service.DeleteSecret`. -/
def Service.DeleteSecret (db : DB) (now : Time) (cmd : DeleteSecretCommand) :
    Run DeleteSecretCommand :=
  SQLStore.DeleteSecret db now cmd

/-- The service method `Service.UpdateSecret`. -/
def Service.UpdateSecret (crypto : SecretsService) (db : DB) (now : Time)
    (cmd : UpdateSecretCommand) : Run UpdateSecretCommand :=
  match crypto.EncryptJsonData cmd.SecureJsonData with
  | (enc, some err) => Run.returned (.err err) { cmd with EncryptedSecureJsonData := enc } db
  | (enc, none) => SQLStore.UpdateSecret db now { cmd with EncryptedSecureJsonData := enc }

/-- What a call of `DecryptedValues` leaves behind: the map returned, the cache after the call,
and the arguments of the calls of `DecryptJsonData` it made. -/
structure Decrypted where
  json : PlainMap
  cache : Cache
  calls : List CipherMap

/-- The service method `Service.DecryptedValues`, run under the lock of the cache. -/
def Service.DecryptedValues (crypto : SecretsService) (cache : Cache) (sc : Secret) : Decrypted :=
  let miss : Decrypted :=
    match crypto.DecryptJsonData sc.SecureJsonData with
    | (_, some _) => { json := [], cache := cache, calls := [sc.SecureJsonData] }
    | (json, none) =>
      { json := json
        cache := Function.update cache sc.Id (some { updated := sc.Updated, json := json })
        calls := [sc.SecureJsonData] }
  match cache sc.Id with
  | some item => if sc.Updated = item.updated then { json := item.json, cache := cache, calls := [] }
      else miss
  | none => miss

/-! ## Definitions used to state the properties -/

/-- The collaborator round-trips: whenever encryption of `p` succeeds, decryption of the
ciphertext succeeds and gives `p` back. -/
def SecretsService.RoundTrips (crypto : SecretsService) : Prop :=
  ∀ p, (crypto.EncryptJsonData p).2 = none →
    crypto.DecryptJsonData (crypto.EncryptJsonData p).1 = (p, none)

/-- A collaborator for concrete runs: every character code of a value is shifted by one. -/
def shiftCrypto : SecretsService :=
  { EncryptJsonData := fun p =>
      (p.map (fun kv => (kv.1, kv.2.data.map (fun c => c.toNat + 1))), none)
    DecryptJsonData := fun c =>
      (c.map (fun kv => (kv.1, String.mk (kv.2.map (fun n => Char.ofNat (n - 1))))), none) }

/-- The row `AddSecret` inserts for a command, once the engine has assigned `id`. -/
def insertedRow (cmd : AddSecretCommand) (id : Int) (tc tu : Time) : Secret :=
  { Id := id, OrgId := cmd.OrgId, EntityUid := cmd.EntityUid,
    SecureJsonData := cmd.EncryptedSecureJsonData, Created := tc, Updated := tu }

/-- The row found by the pre-insert lookup of `AddSecret`, if any. -/
def lookup (db : DB) (orgId : Int) (entityUid : String) : Option Secret :=
  db.rows.find? (matchAll (beanConds { Secret.zero with OrgId := orgId, EntityUid := entityUid }))

/-- The invariants the engine keeps on table `secret`: the auto-increment counter is at or above
every id handed out, ids are positive and pairwise distinct (primary key), and no two rows share
`(org_id, entity_uid)` (unique index). -/
def DB.WF (db : DB) : Prop :=
  0 ≤ db.lastId ∧ (∀ r ∈ db.rows, 0 < r.Id ∧ r.Id ≤ db.lastId) ∧
    (db.rows.map (fun r => r.Id)).Nodup ∧
    (db.rows.map (fun r => (r.OrgId, r.EntityUid))).Nodup

instance (db : DB) : Decidable db.WF := by
  unfold DB.WF
  infer_instance

/-- The command of the service test: only the plaintext map is set. -/
def testAddCmd : AddSecretCommand :=
  { EntityUid := "", SecureJsonData := [("password", "12345")], OrgId := 0,
    EncryptedSecureJsonData := [], Result := none }

/-- The identifier rule is violated: the org id is 0, or the id is 0 and the entity uid is
empty. -/
def identifierNotSet (id orgId : Int) (entityUid : String) : Prop :=
  orgId = 0 ∨ (id = 0 ∧ entityUid = "")

instance (id orgId : Int) (entityUid : String) : Decidable (identifierNotSet id orgId entityUid) := by
  unfold identifierNotSet
  infer_instance

/-- The store of the service test after its first step: the run of `AddSecret` on the empty
database with the command of the test. -/
def testStore : DB :=
  (Service.AddSecret shiftCrypto DB.empty 100 101 102 testAddCmd).db

/-- The update command of the service test: `Id` and `OrgId` of the record created by the first
step and a new plaintext map. -/
def testUpdateCmd : UpdateSecretCommand :=
  { EntityUid := "", SecureJsonData := [("password", "678910")], OrgId := 0, Id := 1,
    EncryptedSecureJsonData := [], Result := none }

/-- The command of the spec's first scenario, after the service has attached the ciphertext. -/
def cmdA : AddSecretCommand :=
  { EntityUid := "ds-a", SecureJsonData := [("password", "12345")], OrgId := 1,
    EncryptedSecureJsonData := (shiftCrypto.EncryptJsonData [("password", "12345")]).1,
    Result := none }

/-- The store after the spec's first scenario: `AddSecret` of `cmdA` on the empty database. -/
def storeA : DB :=
  (SQLStore.AddSecret DB.empty 100 101 102 cmdA).db

/-- The bean `GetSecret` hands to xorm for a query. -/
def queryBean (q : GetSecretQuery) : Secret :=
  { Secret.zero with EntityUid := q.EntityUid, OrgId := q.OrgId, Id := q.Id }

/-- The rows of one org in ascending id order: what `GetSecrets` reads without a limit. -/
def orgRows (db : DB) (orgId : Int) : List Secret :=
  (db.rows.filter (fun r => r.OrgId == orgId)).insertionSort (fun a b => a.Id ≤ b.Id)

/-- A store with rows of two orgs, not in id order physically. -/
def storeB : DB :=
  { rows := [
      { Id := 3, OrgId := 1, EntityUid := "c", SecureJsonData := [], Created := 7, Updated := 7 },
      { Id := 1, OrgId := 1, EntityUid := "a", SecureJsonData := [], Created := 5, Updated := 5 },
      { Id := 2, OrgId := 2, EntityUid := "a", SecureJsonData := [], Created := 6, Updated := 6 },
      { Id := 4, OrgId := 1, EntityUid := "d", SecureJsonData := [], Created := 8, Updated := 9 }],
    lastId := 4, strict := true }

/-- The delete command of the spec's fourth scenario: by org id and entity uid. -/
def delCmdA : DeleteSecretCommand :=
  { ID := 0, OrgID := 1, EntityUID := "ds-a", DeletedSecretsCount := 0 }

/-- A delete command that carries both an id and an entity uid. -/
def delCmdBoth : DeleteSecretCommand :=
  { ID := 3, OrgID := 1, EntityUID := "a", DeletedSecretsCount := 0 }

/-- The command of the spec's first scenario with the org id left at zero. -/
def cmdNoOrg : AddSecretCommand := { cmdA with OrgId := 0 }

/-- The command of the spec's first scenario with the entity uid left empty. -/
def cmdNoUid : AddSecretCommand := { cmdA with EntityUid := "" }

/-- The cache holds a valid entry for `sc`: one stored under `sc.Id` whose `updated` equals
`sc.Updated`. -/
def Cache.validFor (cache : Cache) (sc : Secret) : Prop :=
  ∃ item, cache sc.Id = some item ∧ sc.Updated = item.updated

/-- The cache reached from the empty cache by calling `DecryptedValues` on the given secrets, in
order. -/
def cacheAfter (crypto : SecretsService) (calls : List Secret) : Cache :=
  calls.foldl (fun cache s => (Service.DecryptedValues crypto cache s).cache) Cache.empty

/-- A collaborator whose decryption fails on every input. -/
def failingCrypto : SecretsService :=
  { EncryptJsonData := shiftCrypto.EncryptJsonData
    DecryptJsonData := fun _ => ([], some (.crypto "decryption failed")) }

/-- A secret with id 1, read at `updated = 5`. -/
def secretOld : Secret :=
  { Id := 1, OrgId := 1, EntityUid := "ds-a",
    SecureJsonData := (shiftCrypto.EncryptJsonData [("password", "12345")]).1,
    Created := 5, Updated := 5 }

/-- A secret with the same id and the same `updated` as `secretOld` and another ciphertext. -/
def secretNew : Secret :=
  { secretOld with SecureJsonData := (shiftCrypto.EncryptJsonData [("password", "678910")]).1 }

/-- A clock reading: 1700000000 seconds and 123456789 nanoseconds. -/
def clockCreated : Time := 1700000000123456789

/-- The next clock reading, 211 nanoseconds later, in the same second. -/
def clockUpdated : Time := 1700000000123457000

/-- The clock reading taken for the event, later again. -/
def clockEvent : Time := 1700000000123458000

/-! ## Auxiliary lemmas -/

theorem shiftCrypto_roundTrips : shiftCrypto.RoundTrips := by
  intro p _
  have hv : ∀ v : String,
      String.mk ((v.data.map (fun c => c.toNat + 1)).map (fun n => Char.ofNat (n - 1))) = v := by
    intro v
    obtain ⟨l⟩ := v
    congr 1
    induction l with
    | nil => rfl
    | cons c l ih => simp [ih]
  simp only [shiftCrypto, List.map_map, Prod.mk.injEq, and_true]
  induction p with
  | nil => rfl
  | cons kv p ih =>
    obtain ⟨k, v⟩ := kv
    have h2 := hv v
    simp only [List.map_map] at h2
    simp [ih rfl, h2]

theorem string_length_eq_zero (s : String) : s.length = 0 ↔ s = "" := by
  constructor
  · intro h
    obtain ⟨l⟩ := s
    have : l = [] := List.length_eq_zero.mp h
    subst this
    rfl
  · rintro rfl
    rfl

theorem matchAll_beanConds_of_eq (r : Secret) (orgId : Int) (entityUid : String)
    (ho : r.OrgId = orgId) (hu : r.EntityUid = entityUid) :
    matchAll (beanConds { Secret.zero with OrgId := orgId, EntityUid := entityUid }) r = true := by
  subst ho hu
  simp only [matchAll, beanConds, Secret.zero]
  by_cases h1 : r.OrgId = 0 <;> by_cases h2 : r.EntityUid = "" <;>
    simp [h1, h2, Cond.holds]

theorem addSecret_of_lookup_some (db : DB) (tc tu te : Time) (cmd : AddSecretCommand)
    (r : Secret) (h : lookup db cmd.OrgId cmd.EntityUid = some r) :
    SQLStore.AddSecret db tc tu te cmd =
      { outcome := .err .ErrSecretEntityUidExists, cmd := cmd, db := db,
        stmts := [Stmt.begin,
          Stmt.select Secret.tableName
            (beanConds { Secret.zero with OrgId := cmd.OrgId, EntityUid := cmd.EntityUid })
            false (some 1),
          Stmt.rollback],
        scheduled := [], published := [] } := by
  unfold lookup at h
  simp [SQLStore.AddSecret, WithTransactionalDbSession, DBSession.Get, DBSession.send,
    Secret.tableName, tableV1Name, h]

theorem addSecret_ok (db : DB) (tc tu te : Time) (cmd : AddSecretCommand)
    (hok : (SQLStore.AddSecret db tc tu te cmd).outcome = .ok) :
    lookup db cmd.OrgId cmd.EntityUid = none ∧
    (SQLStore.AddSecret db tc tu te cmd).cmd =
      { cmd with Result := some (insertedRow cmd (db.lastId + 1) tc tu) } ∧
    (SQLStore.AddSecret db tc tu te cmd).db =
      { db with
        rows := db.rows ++ [(insertedRow cmd (db.lastId + 1) tc tu).stored]
        lastId := db.lastId + 1 } ∧
    (SQLStore.AddSecret db tc tu te cmd).published =
      [Event.SecretCreated te cmd.EntityUid (db.lastId + 1) cmd.OrgId] := by
  cases hl : lookup db cmd.OrgId cmd.EntityUid with
  | some r =>
    rw [addSecret_of_lookup_some db tc tu te cmd r hl] at hok
    simp at hok
  | none =>
    simp only [lookup, Secret.zero] at hl
    revert hok
    simp only [SQLStore.AddSecret, WithTransactionalDbSession, DBSession.Get, DBSession.send,
      Secret.tableName, tableV1Name, DBSession.Insert, DBSession.publishAfterCommit,
      Secret.zero, if_true, insertedRow, Secret.stored]
    rw [hl]
    simp only []
    split_ifs
    · simp [IsUniqueConstraintViolation]
    · simp only [IsUniqueConstraintViolation, uniqueViolation]
      split_ifs <;> simp
    · simp

/-! ## The claims -/

/-- C1: if the collaborator round-trips, then whenever the service's AddSecret returns no error
the command's Result is set and decrypting its SecureJsonData succeeds and gives the
plaintext map of the command. -/
theorem C1_addSecret_result_decrypts (crypto : SecretsService) (db : DB) (tc tu te : Time)
    (cmd : AddSecretCommand) (hrt : crypto.RoundTrips)
    (hok : (Service.AddSecret crypto db tc tu te cmd).outcome = .ok) :
    ∃ s, (Service.AddSecret crypto db tc tu te cmd).cmd.Result = some s ∧
      crypto.DecryptJsonData s.SecureJsonData = (cmd.SecureJsonData, none) := by
  have hrt' := hrt cmd.SecureJsonData
  unfold Service.AddSecret at hok ⊢
  rcases henc : crypto.EncryptJsonData cmd.SecureJsonData with ⟨enc, _ | e⟩
  · rw [henc] at hok hrt'
    simp only at hok ⊢
    obtain ⟨-, hcmd, -, -⟩ := addSecret_ok db tc tu te _ hok
    refine ⟨_, by rw [hcmd], ?_⟩
    simpa [insertedRow] using hrt' rfl
  · rw [henc] at hok
    simp [Run.returned] at hok

/-- C1, at the command of the service test on the empty store. -/
theorem C1_addSecret_result_decrypts_witness :
    ∃ s, (Service.AddSecret shiftCrypto DB.empty 100 101 102 testAddCmd).cmd.Result = some s ∧
      shiftCrypto.DecryptJsonData s.SecureJsonData = (testAddCmd.SecureJsonData, none) :=
  C1_addSecret_result_decrypts shiftCrypto DB.empty 100 101 102 testAddCmd
    shiftCrypto_roundTrips (by decide)

theorem getSecret_of_valid (db : DB) (q : GetSecretQuery)
    (h : ¬ identifierNotSet q.Id q.OrgId q.EntityUid) :
    SQLStore.GetSecret db q =
      match db.rows.find? (matchAll (beanConds (queryBean q))) with
      | some r =>
        { outcome := .ok, cmd := { q with Result := some r }, db := db,
          stmts := [Stmt.select Secret.tableName (beanConds (queryBean q)) false (some 1)],
          scheduled := [], published := [] }
      | none =>
        { outcome := .err .ErrSecretNotFound, cmd := q, db := db,
          stmts := [Stmt.select Secret.tableName (beanConds (queryBean q)) false (some 1)],
          scheduled := [], published := [] } := by
  have h' : ¬ (q.OrgId = 0 ∨ (q.Id = 0 ∧ q.EntityUid.length = 0)) := by
    simpa [identifierNotSet, string_length_eq_zero] using h
  simp only [SQLStore.GetSecret, WithDbSession, if_neg h', DBSession.Get, Secret.tableName,
    tableV1Name, if_true, queryBean, DBSession.send]
  cases db.rows.find? (matchAll (beanConds
    { Secret.zero with EntityUid := q.EntityUid, OrgId := q.OrgId, Id := q.Id })) <;> rfl

theorem updateSecret_store_panics (db : DB) (now : Time) (cmd : UpdateSecretCommand) :
    SQLStore.UpdateSecret db now cmd =
      { outcome := .panic, cmd := cmd, db := db, stmts := [Stmt.begin, Stmt.rollback],
        scheduled := [], published := [] } := by
  simp [SQLStore.UpdateSecret, WithTransactionalDbSession, Session.Update, updateSession]

theorem updateSecret_never_ok (crypto : SecretsService) (db : DB) (now : Time)
    (cmd : UpdateSecretCommand) :
    (Service.UpdateSecret crypto db now cmd).outcome ≠ .ok ∧
      (Service.UpdateSecret crypto db now cmd).cmd.Result = cmd.Result ∧
      (Service.UpdateSecret crypto db now cmd).db = db := by
  unfold Service.UpdateSecret
  rcases crypto.EncryptJsonData cmd.SecureJsonData with ⟨enc, _ | e⟩
  · simp [updateSecret_store_panics]
  · simp [Run.returned]

/-- C2 (the code fails the claim): on the store left by the test's AddSecret, UpdateSecret with
the record's Id and OrgId and a new plaintext map does not return; it panics on the nil update
session, leaves the command's Result unset and the stored row as it was. -/
theorem C2_updateSecret_panics :
    (Service.UpdateSecret shiftCrypto testStore 200 testUpdateCmd).outcome = Outcome.panic ∧
    (Service.UpdateSecret shiftCrypto testStore 200 testUpdateCmd).cmd.Result = none ∧
    (Service.UpdateSecret shiftCrypto testStore 200 testUpdateCmd).db = testStore ∧
    (Service.UpdateSecret shiftCrypto testStore 200 testUpdateCmd).stmts =
      [Stmt.begin, Stmt.rollback] := by
  decide

/-- C3: GetSecret and DeleteSecret return ErrSecretIdentifierNotSet exactly when the org id is 0
or both the id is 0 and the entity uid is empty; in that case no statement is sent to the
engine, the store is unchanged, the query (its Result included) and the command (its
DeletedSecretsCount included) are left as they were, and no event is queued. -/
theorem C3_identifier_rule (db : DB) (now : Time) (q : GetSecretQuery)
    (cmd : DeleteSecretCommand) :
    ((SQLStore.GetSecret db q).outcome = .err .ErrSecretIdentifierNotSet ↔
      identifierNotSet q.Id q.OrgId q.EntityUid) ∧
    (identifierNotSet q.Id q.OrgId q.EntityUid →
      (SQLStore.GetSecret db q).stmts = [] ∧ (SQLStore.GetSecret db q).db = db ∧
      (SQLStore.GetSecret db q).cmd = q) ∧
    ((SQLStore.DeleteSecret db now cmd).outcome = .err .ErrSecretIdentifierNotSet ↔
      identifierNotSet cmd.ID cmd.OrgID cmd.EntityUID) ∧
    (identifierNotSet cmd.ID cmd.OrgID cmd.EntityUID →
      (SQLStore.DeleteSecret db now cmd).stmts = [] ∧ (SQLStore.DeleteSecret db now cmd).db = db ∧
      (SQLStore.DeleteSecret db now cmd).cmd = cmd ∧
      (SQLStore.DeleteSecret db now cmd).scheduled = []) := by
  have hget : ¬ identifierNotSet q.Id q.OrgId q.EntityUid →
      (SQLStore.GetSecret db q).outcome ≠ .err .ErrSecretIdentifierNotSet := by
    intro h
    rw [getSecret_of_valid db q h]
    cases db.rows.find? (matchAll (beanConds (queryBean q))) <;> simp
  have hget' : identifierNotSet q.Id q.OrgId q.EntityUid →
      SQLStore.GetSecret db q = Run.returned (.err .ErrSecretIdentifierNotSet) q db := by
    intro h
    have h' : q.OrgId = 0 ∨ (q.Id = 0 ∧ q.EntityUid.length = 0) := by
      simpa [identifierNotSet, string_length_eq_zero] using h
    simp [SQLStore.GetSecret, WithDbSession, if_pos h', Run.returned]
  have hdel' : identifierNotSet cmd.ID cmd.OrgID cmd.EntityUID →
      SQLStore.DeleteSecret db now cmd = Run.returned (.err .ErrSecretIdentifierNotSet) cmd db := by
    intro h
    rcases h with h | ⟨h1, h2⟩
    · simp [SQLStore.DeleteSecret, h]
    · by_cases h0 : cmd.OrgID = 0
      · simp [SQLStore.DeleteSecret, h0]
      · simp [SQLStore.DeleteSecret, h0, h1, h2]
  have hdel : ¬ identifierNotSet cmd.ID cmd.OrgID cmd.EntityUID →
      (SQLStore.DeleteSecret db now cmd).outcome ≠ .err .ErrSecretIdentifierNotSet := by
    intro h
    simp only [identifierNotSet, not_or, not_and] at h
    obtain ⟨h0, h1⟩ := h
    by_cases hid : cmd.ID = 0
    · simp [SQLStore.DeleteSecret, h0, hid, h1 hid, WithTransactionalDbSession, DBSession.Exec,
        tableV1Name]
    · simp [SQLStore.DeleteSecret, h0, hid, WithTransactionalDbSession, DBSession.Exec,
        tableV1Name]
  refine ⟨⟨fun h => by_contra fun hn => hget hn h, fun h => by rw [hget' h]; rfl⟩,
    fun h => by rw [hget' h]; exact ⟨rfl, rfl, rfl⟩,
    ⟨fun h => by_contra fun hn => hdel hn h, fun h => by rw [hdel' h]; rfl⟩,
    fun h => by rw [hdel' h]; exact ⟨rfl, rfl, rfl, rfl⟩⟩

/-- C3, at two queries and two commands on the store of the service test. -/
theorem C3_identifier_rule_witness :
    (SQLStore.GetSecret testStore { Id := 0, OrgId := 1, EntityUid := "", Result := none }).outcome
        = .err .ErrSecretIdentifierNotSet ∧
      (SQLStore.GetSecret testStore { Id := 1, OrgId := 0, EntityUid := "x", Result := none }).stmts
        = [] ∧
      (SQLStore.DeleteSecret testStore 5
        { ID := 0, OrgID := 1, EntityUID := "ds-a", DeletedSecretsCount := 7 }).outcome
        ≠ .err .ErrSecretIdentifierNotSet ∧
      (SQLStore.DeleteSecret testStore 5
        { ID := 3, OrgID := 0, EntityUID := "ds-a", DeletedSecretsCount := 7 }).cmd
        = { ID := 3, OrgID := 0, EntityUID := "ds-a", DeletedSecretsCount := 7 } :=
  ⟨(C3_identifier_rule testStore 5 { Id := 0, OrgId := 1, EntityUid := "", Result := none }
      { ID := 0, OrgID := 1, EntityUID := "ds-a", DeletedSecretsCount := 7 }).1.2 (by decide),
   ((C3_identifier_rule testStore 5 { Id := 1, OrgId := 0, EntityUid := "x", Result := none }
      { ID := 3, OrgID := 0, EntityUID := "ds-a", DeletedSecretsCount := 7 }).2.1 (by decide)).1,
   fun h => absurd ((C3_identifier_rule testStore 5
      { Id := 0, OrgId := 1, EntityUid := "", Result := none }
      { ID := 0, OrgID := 1, EntityUID := "ds-a", DeletedSecretsCount := 7 }).2.2.1.1 h)
      (by decide),
   ((C3_identifier_rule testStore 5 { Id := 1, OrgId := 0, EntityUid := "x", Result := none }
      { ID := 3, OrgID := 0, EntityUID := "ds-a", DeletedSecretsCount := 7 }).2.2.2
      (by decide)).2.2.1⟩

/-- C4: when the store already holds a row with the command's (org_id, entity_uid), AddSecret
returns ErrSecretEntityUidExists, leaves the store as it was (every row unchanged, no row
added), leaves the command as it was (Result not set) and queues and publishes no event. -/
theorem C4_addSecret_duplicate (db : DB) (tc tu te : Time) (cmd : AddSecretCommand)
    (h : ∃ r ∈ db.rows, r.OrgId = cmd.OrgId ∧ r.EntityUid = cmd.EntityUid) :
    (SQLStore.AddSecret db tc tu te cmd).outcome = .err .ErrSecretEntityUidExists ∧
    (SQLStore.AddSecret db tc tu te cmd).db = db ∧
    (SQLStore.AddSecret db tc tu te cmd).cmd = cmd ∧
    (SQLStore.AddSecret db tc tu te cmd).scheduled = [] ∧
    (SQLStore.AddSecret db tc tu te cmd).published = [] := by
  obtain ⟨r, hr, ho, hu⟩ := h
  cases hl : lookup db cmd.OrgId cmd.EntityUid with
  | none =>
    have := List.find?_eq_none.mp hl r hr
    rw [matchAll_beanConds_of_eq r _ _ ho hu] at this
    exact absurd rfl this
  | some r' =>
    rw [addSecret_of_lookup_some db tc tu te cmd r' hl]
    exact ⟨rfl, rfl, rfl, rfl, rfl⟩

/-- C4, at a second AddSecret of the same command on the store it was added to. -/
theorem C4_addSecret_duplicate_witness :
    (SQLStore.AddSecret storeA 200 201 202 cmdA).outcome = .err .ErrSecretEntityUidExists ∧
    (SQLStore.AddSecret storeA 200 201 202 cmdA).db = storeA ∧
    (SQLStore.AddSecret storeA 200 201 202 cmdA).cmd = cmdA ∧
    (SQLStore.AddSecret storeA 200 201 202 cmdA).scheduled = [] ∧
    (SQLStore.AddSecret storeA 200 201 202 cmdA).published = [] :=
  C4_addSecret_duplicate storeA 200 201 202 cmdA (by decide)

theorem wf_empty : DB.empty.WF := by decide

theorem wf_addSecret (db : DB) (tc tu te : Time) (cmd : AddSecretCommand) (hwf : db.WF) :
    (SQLStore.AddSecret db tc tu te cmd).db.WF := by
  by_cases hok : (SQLStore.AddSecret db tc tu te cmd).outcome = .ok
  · obtain ⟨hl, -, hdb, -⟩ := addSecret_ok db tc tu te cmd hok
    rw [hdb]
    obtain ⟨h0, hid, hpk, huq⟩ := hwf
    have hfresh : ∀ r ∈ db.rows, ¬ (r.OrgId = cmd.OrgId ∧ r.EntityUid = cmd.EntityUid) := by
      intro r hr ⟨ho, hu⟩
      have := List.find?_eq_none.mp hl r hr
      rw [matchAll_beanConds_of_eq r _ _ ho hu] at this
      exact this rfl
    refine ⟨by simp only; omega, ?_, ?_, ?_⟩
    · intro r hr
      simp only [List.mem_append, List.mem_singleton] at hr
      rcases hr with hr | rfl
      · have := hid r hr
        simp only
        omega
      · simp only [insertedRow, Secret.stored]
        omega
    · simp only [List.map_append, List.map_cons, List.map_nil]
      refine List.Nodup.append hpk (List.nodup_singleton _) ?_
      simp only [List.disjoint_singleton, List.mem_map, not_exists, not_and, insertedRow,
        Secret.stored]
      intro r hr heq
      have := hid r hr
      omega
    · simp only [List.map_append, List.map_cons, List.map_nil]
      refine List.Nodup.append huq (List.nodup_singleton _) ?_
      simp only [List.disjoint_singleton, List.mem_map, not_exists, not_and, insertedRow,
        Secret.stored, Prod.mk.injEq]
      intro r hr ho hu
      exact hfresh r hr ⟨ho, hu⟩
  · have hdb : (SQLStore.AddSecret db tc tu te cmd).db = db := by
      revert hok
      simp only [SQLStore.AddSecret, WithTransactionalDbSession]
      split <;> simp_all
    rw [hdb]
    exact hwf

theorem deleteSecret_by_id (db : DB) (now : Time) (cmd : DeleteSecretCommand)
    (horg : cmd.OrgID ≠ 0) (hid : cmd.ID ≠ 0) :
    SQLStore.DeleteSecret db now cmd =
      { outcome := .panic, cmd := cmd, db := db,
        stmts := [Stmt.begin, Stmt.delete "secrets" [Cond.id cmd.ID, Cond.org_id cmd.OrgID],
          Stmt.rollback],
        scheduled := [], published := [] } := by
  simp [SQLStore.DeleteSecret, horg, hid, WithTransactionalDbSession, DBSession.Exec,
    DBSession.send, tableV1Name]

theorem deleteSecret_by_uid (db : DB) (now : Time) (cmd : DeleteSecretCommand)
    (horg : cmd.OrgID ≠ 0) (hid : cmd.ID = 0) (huid : cmd.EntityUID ≠ "") :
    SQLStore.DeleteSecret db now cmd =
      { outcome := .panic, cmd := cmd, db := db,
        stmts := [Stmt.begin,
          Stmt.delete "secrets" [Cond.entity_uid cmd.EntityUID, Cond.org_id cmd.OrgID],
          Stmt.rollback],
        scheduled := [], published := [] } := by
  simp [SQLStore.DeleteSecret, horg, hid, huid, WithTransactionalDbSession, DBSession.Exec,
    DBSession.send, tableV1Name]

theorem deleteSecret_db (db : DB) (now : Time) (cmd : DeleteSecretCommand) :
    (SQLStore.DeleteSecret db now cmd).db = db := by
  by_cases horg : cmd.OrgID = 0
  · simp [SQLStore.DeleteSecret, horg, Run.returned]
  · by_cases hid : cmd.ID = 0
    · by_cases huid : cmd.EntityUID = ""
      · simp [SQLStore.DeleteSecret, horg, hid, huid, Run.returned]
      · rw [deleteSecret_by_uid db now cmd horg hid huid]
    · rw [deleteSecret_by_id db now cmd horg hid]

theorem getSecrets_eq (db : DB) (q : GetSecretsQuery) :
    SQLStore.GetSecrets db q =
      { outcome := .ok,
        cmd := { q with Result := if q.SecretLimit ≤ 0 then orgRows db q.OrgId
                  else (orgRows db q.OrgId).take q.SecretLimit.toNat },
        db := db,
        stmts := [Stmt.select Secret.tableName [Cond.org_id q.OrgId] true
          (if q.SecretLimit ≤ 0 then none else some q.SecretLimit.toNat)],
        scheduled := [], published := [] } := by
  by_cases h : q.SecretLimit ≤ 0 <;>
    simp [SQLStore.GetSecrets, WithDbSession, DBSession.Find, DBSession.send, Secret.tableName,
      tableV1Name, orgRows, h]

theorem orgRows_perm (db : DB) (orgId : Int) :
    (orgRows db orgId).Perm (db.rows.filter (fun r => r.OrgId == orgId)) :=
  List.perm_insertionSort _ _

theorem orgRows_sorted (db : DB) (orgId : Int) (hpk : (db.rows.map (fun r => r.Id)).Nodup) :
    List.Sorted (fun a b : Secret => a.Id < b.Id) (orgRows db orgId) := by
  have hle : List.Sorted (fun a b : Secret => a.Id ≤ b.Id) (orgRows db orgId) := by
    haveI : IsTotal Secret (fun a b => a.Id ≤ b.Id) := ⟨fun a b => Int.le_total a.Id b.Id⟩
    haveI : IsTrans Secret (fun a b => a.Id ≤ b.Id) := ⟨fun _ _ _ h1 h2 => Int.le_trans h1 h2⟩
    exact List.sorted_insertionSort _ _
  have hnd : List.Pairwise (fun a b : Secret => a.Id ≠ b.Id) (orgRows db orgId) := by
    have h1 : List.Pairwise (fun a b : Secret => a.Id ≠ b.Id) db.rows :=
      List.pairwise_map.mp hpk
    have h2 : List.Pairwise (fun a b : Secret => a.Id ≠ b.Id)
        (db.rows.filter (fun r => r.OrgId == orgId)) := h1.sublist (List.filter_sublist _)
    exact (orgRows_perm db orgId).symm.pairwise h2 (fun h => h.symm)
  exact (hle.and hnd).imp (fun ⟨h1, h2⟩ => lt_of_le_of_ne h1 h2)

/-- C6: GetSecrets returns no error, leaves the store as it was, and sets Result to rows of the
store whose org_id is the query's, in strictly ascending id order; with SecretLimit at most 0
the Result holds every such row exactly once, and with SecretLimit above 0 it is the first
SecretLimit rows of the Result of the same query without a limit. -/
theorem C6_getSecrets (db : DB) (q : GetSecretsQuery)
    (hpk : (db.rows.map (fun r => r.Id)).Nodup) :
    (SQLStore.GetSecrets db q).outcome = .ok ∧
    (SQLStore.GetSecrets db q).db = db ∧
    List.Sorted (fun a b : Secret => a.Id < b.Id) (SQLStore.GetSecrets db q).cmd.Result ∧
    (∀ r ∈ (SQLStore.GetSecrets db q).cmd.Result, r ∈ db.rows ∧ r.OrgId = q.OrgId) ∧
    (q.SecretLimit ≤ 0 →
      (SQLStore.GetSecrets db q).cmd.Result.Perm
        (db.rows.filter (fun r => r.OrgId == q.OrgId))) ∧
    (0 < q.SecretLimit →
      (SQLStore.GetSecrets db q).cmd.Result =
        (SQLStore.GetSecrets db { q with SecretLimit := 0 }).cmd.Result.take
          q.SecretLimit.toNat) := by
  have hsub : ((SQLStore.GetSecrets db q).cmd.Result).Sublist (orgRows db q.OrgId) := by
    rw [getSecrets_eq]
    simp only
    split_ifs
    · exact List.Sublist.refl _
    · exact List.take_sublist _ _
  refine ⟨by rw [getSecrets_eq], by rw [getSecrets_eq], ?_, ?_, ?_, ?_⟩
  · exact (orgRows_sorted db q.OrgId hpk).sublist hsub
  · intro r hr
    have := (orgRows_perm db q.OrgId).subset (hsub.subset hr)
    simpa using this
  · intro h
    rw [getSecrets_eq]
    simp only [if_pos h]
    exact orgRows_perm db q.OrgId
  · intro h
    rw [getSecrets_eq, getSecrets_eq]
    simp [not_le.mpr h]

/-- C6, at a store with four rows of two orgs, with limit 2 and without limit. -/
theorem C6_getSecrets_witness :
    (SQLStore.GetSecrets storeB { OrgId := 1, SecretLimit := 2, Result := [] }).outcome = .ok ∧
    (SQLStore.GetSecrets storeB { OrgId := 1, SecretLimit := 2, Result := [] }).cmd.Result.map
      (fun r => r.Id) = [1, 3] ∧
    (SQLStore.GetSecrets storeB { OrgId := 1, SecretLimit := 0, Result := [] }).cmd.Result.map
      (fun r => r.Id) = [1, 3, 4] ∧
    (SQLStore.GetSecrets storeB { OrgId := 1, SecretLimit := 2, Result := [] }).cmd.Result =
      (SQLStore.GetSecrets storeB { OrgId := 1, SecretLimit := 0, Result := [] }).cmd.Result.take
        2 :=
  ⟨(C6_getSecrets storeB { OrgId := 1, SecretLimit := 2, Result := [] } (by decide)).1,
    by decide, by decide,
    (C6_getSecrets storeB { OrgId := 1, SecretLimit := 2, Result := [] } (by decide)).2.2.2.2.2
      (by decide)⟩

/-- C7 (the code fails the claim): after AddSecret of a record with OrgId 1 and EntityUid ds-a,
DeleteSecret by that OrgID and EntityUID sends its statement to table secrets, which is not the
table secret the record lives in: the call panics on the nil result, DeletedSecretsCount stays
0, the row stays in the store, and a following GetSecret for the same (OrgId, EntityUid)
returns the row instead of ErrSecretNotFound. -/
theorem C7_deleteSecret_keeps_row :
    (SQLStore.AddSecret DB.empty 100 101 102 cmdA).outcome = .ok ∧
    (SQLStore.DeleteSecret storeA 103 delCmdA).outcome = Outcome.panic ∧
    (SQLStore.DeleteSecret storeA 103 delCmdA).cmd.DeletedSecretsCount = 0 ∧
    (SQLStore.DeleteSecret storeA 103 delCmdA).stmts =
      [Stmt.begin,
        Stmt.delete "secrets" [Cond.entity_uid "ds-a", Cond.org_id 1],
        Stmt.rollback] ∧
    (SQLStore.DeleteSecret storeA 103 delCmdA).db = storeA ∧
    (SQLStore.DeleteSecret storeA 103 delCmdA).db.rows.length = 1 ∧
    (SQLStore.GetSecret (SQLStore.DeleteSecret storeA 103 delCmdA).db
      { Id := 0, OrgId := 1, EntityUid := "ds-a", Result := none }).outcome = .ok ∧
    tableV1Name ≠ "secrets" := by
  decide

/-- C8 (the code fails the claim): for a DeleteSecretCommand with non-zero OrgID, non-zero ID and
non-empty EntityUID, the one delete statement DeleteSecret sends is keyed on (id, org_id); the
entity uid does not occur in it. -/
theorem C8_deleteSecret_keyed_on_id :
    (SQLStore.DeleteSecret storeB 103 delCmdBoth).stmts =
      [Stmt.begin, Stmt.delete "secrets" [Cond.id 3, Cond.org_id 1], Stmt.rollback] := by
  decide

theorem find_append_new (rows : List Secret) (row : Secret) (p : Secret → Bool)
    (hold : ∀ r ∈ rows, p r = false) (hnew : p row = true) :
    (rows ++ [row]).find? p = some row := by
  have h1 : rows.find? p = none := by
    rw [List.find?_eq_none]
    intro r hr
    simp [hold r hr]
  simp [List.find?_append, h1, List.find?_cons, hnew]

theorem getSecret_of_not_set (db : DB) (q : GetSecretQuery)
    (h : identifierNotSet q.Id q.OrgId q.EntityUid) :
    SQLStore.GetSecret db q = Run.returned (.err .ErrSecretIdentifierNotSet) q db := by
  have h' : q.OrgId = 0 ∨ (q.Id = 0 ∧ q.EntityUid.length = 0) := by
    simpa [identifierNotSet, string_length_eq_zero] using h
  simp [SQLStore.GetSecret, WithDbSession, if_pos h', Run.returned]

/-- C5 (as amended): on a store that satisfies the table invariants, when AddSecret succeeds the
command's Result is set to a row whose Created and Updated are the two clock readings of the
call. If the command's OrgId is not 0, a following GetSecret by (OrgId, Id = Result.Id) succeeds
and returns the stored row, which is the Result row with Created and Updated cut to the second
precision of their columns; if moreover the EntityUid is not empty, a following GetSecret by
(OrgId, EntityUid) succeeds and returns that same stored row. If the OrgId is 0 both lookups
return ErrSecretIdentifierNotSet, and if the EntityUid is empty the lookup by (OrgId, EntityUid)
returns ErrSecretIdentifierNotSet. -/
theorem C5_getSecret_after_addSecret (db : DB) (tc tu te : Time) (cmd : AddSecretCommand)
    (res : Option Secret) (hwf : db.WF)
    (hok : (SQLStore.AddSecret db tc tu te cmd).outcome = .ok) :
    ∃ row, (SQLStore.AddSecret db tc tu te cmd).cmd.Result = some row ∧
      row.Created = tc ∧ row.Updated = tu ∧
      (cmd.OrgId ≠ 0 →
        (SQLStore.GetSecret (SQLStore.AddSecret db tc tu te cmd).db
          { Id := row.Id, OrgId := cmd.OrgId, EntityUid := "", Result := res }).outcome = .ok ∧
        (SQLStore.GetSecret (SQLStore.AddSecret db tc tu te cmd).db
          { Id := row.Id, OrgId := cmd.OrgId, EntityUid := "", Result := res }).cmd.Result
            = some { row with Created := datetime tc, Updated := datetime tu }) ∧
      (cmd.OrgId ≠ 0 → cmd.EntityUid ≠ "" →
        (SQLStore.GetSecret (SQLStore.AddSecret db tc tu te cmd).db
          { Id := 0, OrgId := cmd.OrgId, EntityUid := cmd.EntityUid, Result := res }).outcome
            = .ok ∧
        (SQLStore.GetSecret (SQLStore.AddSecret db tc tu te cmd).db
          { Id := 0, OrgId := cmd.OrgId, EntityUid := cmd.EntityUid, Result := res }).cmd.Result
            = some { row with Created := datetime tc, Updated := datetime tu }) ∧
      (cmd.OrgId = 0 →
        (SQLStore.GetSecret (SQLStore.AddSecret db tc tu te cmd).db
          { Id := row.Id, OrgId := cmd.OrgId, EntityUid := "", Result := res }).outcome
            = .err .ErrSecretIdentifierNotSet ∧
        (SQLStore.GetSecret (SQLStore.AddSecret db tc tu te cmd).db
          { Id := 0, OrgId := cmd.OrgId, EntityUid := cmd.EntityUid, Result := res }).outcome
            = .err .ErrSecretIdentifierNotSet) ∧
      (cmd.EntityUid = "" →
        (SQLStore.GetSecret (SQLStore.AddSecret db tc tu te cmd).db
          { Id := 0, OrgId := cmd.OrgId, EntityUid := cmd.EntityUid, Result := res }).outcome
            = .err .ErrSecretIdentifierNotSet) := by
  obtain ⟨hl, hcmd, hdb, -⟩ := addSecret_ok db tc tu te cmd hok
  obtain ⟨h0, hid, -, -⟩ := hwf
  have hne : db.lastId + 1 ≠ 0 := by omega
  refine ⟨insertedRow cmd (db.lastId + 1) tc tu, by rw [hcmd], rfl, rfl, ?_, ?_, ?_, ?_⟩
  · intro horg
    rw [hdb]
    have hbyId : (db.rows ++ [(insertedRow cmd (db.lastId + 1) tc tu).stored]).find?
        (matchAll (beanConds (queryBean
          { Id := db.lastId + 1, OrgId := cmd.OrgId, EntityUid := "", Result := res }))) =
        some (insertedRow cmd (db.lastId + 1) tc tu).stored := by
      apply find_append_new
      · intro r hr
        have := hid r hr
        have hr' : r.Id ≠ db.lastId + 1 := by omega
        simp [matchAll, beanConds, queryBean, Secret.zero, hne, horg, Cond.holds, hr']
      · simp [matchAll, beanConds, queryBean, Secret.zero, hne, horg, Cond.holds, insertedRow,
          Secret.stored]
    have hvalid : ¬ identifierNotSet (db.lastId + 1) cmd.OrgId "" := by
      simp [identifierNotSet, horg, hne]
    have hget := getSecret_of_valid
      { db with rows := db.rows ++ [(insertedRow cmd (db.lastId + 1) tc tu).stored],
                lastId := db.lastId + 1 }
      { Id := db.lastId + 1, OrgId := cmd.OrgId, EntityUid := "", Result := res } hvalid
    simp only [hbyId] at hget
    exact ⟨congrArg Run.outcome hget, congrArg (fun r => r.cmd.Result) hget⟩
  · intro horg huid
    rw [hdb]
    have hbyUid : (db.rows ++ [(insertedRow cmd (db.lastId + 1) tc tu).stored]).find?
        (matchAll (beanConds (queryBean
          { Id := 0, OrgId := cmd.OrgId, EntityUid := cmd.EntityUid, Result := res }))) =
        some (insertedRow cmd (db.lastId + 1) tc tu).stored := by
      apply find_append_new
      · intro r hr
        have := List.find?_eq_none.mp hl r hr
        simpa [queryBean, Secret.zero] using this
      · exact matchAll_beanConds_of_eq _ _ _ rfl rfl
    have hvalid : ¬ identifierNotSet 0 cmd.OrgId cmd.EntityUid := by
      simp [identifierNotSet, horg, huid]
    have hget := getSecret_of_valid
      { db with rows := db.rows ++ [(insertedRow cmd (db.lastId + 1) tc tu).stored],
                lastId := db.lastId + 1 }
      { Id := 0, OrgId := cmd.OrgId, EntityUid := cmd.EntityUid, Result := res } hvalid
    simp only [hbyUid] at hget
    exact ⟨congrArg Run.outcome hget, congrArg (fun r => r.cmd.Result) hget⟩
  · intro horg
    constructor
    · rw [getSecret_of_not_set _ _ (Or.inl horg)]
      rfl
    · rw [getSecret_of_not_set _ _ (Or.inl horg)]
      rfl
  · intro huid
    rw [getSecret_of_not_set _ _ (Or.inr ⟨rfl, huid⟩)]
    rfl

/-- C5 as amended, at a store with four rows and the command of the first scenario. -/
theorem C5_getSecret_after_addSecret_witness :
    ∃ row, (SQLStore.AddSecret storeB clockCreated clockUpdated clockEvent cmdA).cmd.Result
        = some row ∧
      row.Created = clockCreated ∧ row.Updated = clockUpdated ∧
      (SQLStore.GetSecret (SQLStore.AddSecret storeB clockCreated clockUpdated clockEvent cmdA).db
        { Id := row.Id, OrgId := cmdA.OrgId, EntityUid := "", Result := none }).cmd.Result
          = some { row with Created := datetime clockCreated, Updated := datetime clockUpdated } ∧
      (SQLStore.GetSecret (SQLStore.AddSecret storeB clockCreated clockUpdated clockEvent cmdA).db
        { Id := 0, OrgId := cmdA.OrgId, EntityUid := cmdA.EntityUid, Result := none }).cmd.Result
          = some { row with Created := datetime clockCreated, Updated := datetime clockUpdated } :=
  match C5_getSecret_after_addSecret storeB clockCreated clockUpdated clockEvent cmdA none
      (by decide) (by decide) with
  | ⟨row, h1, h2, h3, h4, h5, _, _⟩ =>
    ⟨row, h1, h2, h3, (h4 (by decide)).2, (h5 (by decide) (by decide)).2⟩

/-- C5 (counterexample to the claim as stated): AddSecret succeeds on the empty store for a
command with OrgId 0, and the following GetSecret by (OrgId, Id = Result.Id) returns
ErrSecretIdentifierNotSet; it succeeds for a command with OrgId 1 and an empty EntityUid, and
the following GetSecret by (OrgId, EntityUid) returns ErrSecretIdentifierNotSet; and for the
command with OrgId 1 and EntityUid ds-a, with two clock readings 211 nanoseconds apart, the
Result row has Created different from Updated, and the row the following GetSecret returns is
not the Result row (its timestamps are cut to the second). -/
theorem C5_counterexample :
    (SQLStore.AddSecret DB.empty clockCreated clockUpdated clockEvent cmdNoOrg).outcome = .ok ∧
    (SQLStore.AddSecret DB.empty clockCreated clockUpdated clockEvent cmdNoOrg).cmd.Result.map
      (fun row => row.Id) = some 1 ∧
    (SQLStore.GetSecret
      (SQLStore.AddSecret DB.empty clockCreated clockUpdated clockEvent cmdNoOrg).db
      { Id := 1, OrgId := 0, EntityUid := "", Result := none }).outcome
        = .err .ErrSecretIdentifierNotSet ∧
    (SQLStore.AddSecret DB.empty clockCreated clockUpdated clockEvent cmdNoUid).outcome = .ok ∧
    (SQLStore.GetSecret
      (SQLStore.AddSecret DB.empty clockCreated clockUpdated clockEvent cmdNoUid).db
      { Id := 0, OrgId := 1, EntityUid := "", Result := none }).outcome
        = .err .ErrSecretIdentifierNotSet ∧
    (SQLStore.AddSecret DB.empty clockCreated clockUpdated clockEvent cmdA).outcome = .ok ∧
    (SQLStore.AddSecret DB.empty clockCreated clockUpdated clockEvent cmdA).cmd.Result.map
      (fun row => decide (row.Created = row.Updated)) = some false ∧
    (SQLStore.GetSecret
      (SQLStore.AddSecret DB.empty clockCreated clockUpdated clockEvent cmdA).db
      { Id := 1, OrgId := 1, EntityUid := "ds-a", Result := none }).outcome = .ok ∧
    (SQLStore.GetSecret
      (SQLStore.AddSecret DB.empty clockCreated clockUpdated clockEvent cmdA).db
      { Id := 1, OrgId := 1, EntityUid := "ds-a", Result := none }).cmd.Result ≠
      (SQLStore.AddSecret DB.empty clockCreated clockUpdated clockEvent cmdA).cmd.Result := by
  decide

theorem decryptedValues_of_valid (crypto : SecretsService) (cache : Cache) (sc : Secret)
    (item : cachedDecryptedJSON) (h1 : cache sc.Id = some item) (h2 : sc.Updated = item.updated) :
    Service.DecryptedValues crypto cache sc = { json := item.json, cache := cache, calls := [] } := by
  simp [Service.DecryptedValues, h1, h2]

theorem decryptedValues_of_not_valid (crypto : SecretsService) (cache : Cache) (sc : Secret)
    (h : ¬ cache.validFor sc) :
    Service.DecryptedValues crypto cache sc =
      match crypto.DecryptJsonData sc.SecureJsonData with
      | (_, some _) => { json := [], cache := cache, calls := [sc.SecureJsonData] }
      | (json, none) =>
        { json := json
          cache := Function.update cache sc.Id (some { updated := sc.Updated, json := json })
          calls := [sc.SecureJsonData] } := by
  unfold Service.DecryptedValues
  cases hc : cache sc.Id with
  | none => rfl
  | some item =>
    have : ¬ sc.Updated = item.updated := fun hu => h ⟨item, hc, hu⟩
    simp [this]

/-- C9 (as amended): for every cache state and every secret sc, two consecutive calls of
DecryptedValues return equal maps (the collaborator being a function of the ciphertext), and the
second call makes no call of DecryptJsonData exactly when the cache held a valid entry for sc
before the first call or the decryption of sc.SecureJsonData succeeds; when neither holds, both
calls return the empty map and the second call calls DecryptJsonData again. -/
theorem C9_decryptedValues_twice (crypto : SecretsService) (cache : Cache) (sc : Secret) :
    (Service.DecryptedValues crypto (Service.DecryptedValues crypto cache sc).cache sc).json =
      (Service.DecryptedValues crypto cache sc).json ∧
    ((Service.DecryptedValues crypto (Service.DecryptedValues crypto cache sc).cache sc).calls = []
      ↔ (cache.validFor sc ∨ (crypto.DecryptJsonData sc.SecureJsonData).2 = none)) ∧
    (¬ (cache.validFor sc ∨ (crypto.DecryptJsonData sc.SecureJsonData).2 = none) →
      (Service.DecryptedValues crypto cache sc).json = [] ∧
      (Service.DecryptedValues crypto (Service.DecryptedValues crypto cache sc).cache sc).json
        = [] ∧
      (Service.DecryptedValues crypto (Service.DecryptedValues crypto cache sc).cache sc).calls
        = [sc.SecureJsonData]) := by
  by_cases hv : cache.validFor sc
  · obtain ⟨item, h1, h2⟩ := hv
    rw [decryptedValues_of_valid crypto cache sc item h1 h2]
    simp only
    rw [decryptedValues_of_valid crypto cache sc item h1 h2]
    exact ⟨rfl, ⟨fun _ => Or.inl ⟨item, h1, h2⟩, fun _ => rfl⟩,
      fun hn => absurd (Or.inl ⟨item, h1, h2⟩) hn⟩
  · rw [decryptedValues_of_not_valid crypto cache sc hv]
    rcases hd : crypto.DecryptJsonData sc.SecureJsonData with ⟨json, _ | e⟩
    · simp only
      rw [decryptedValues_of_valid crypto _ sc { updated := sc.Updated, json := json }
        (by simp) rfl]
      simp
    · simp only
      rw [decryptedValues_of_not_valid crypto cache sc hv, hd]
      simp [hv]

/-- C9 as amended, at the empty cache and a secret whose decryption succeeds. -/
theorem C9_decryptedValues_twice_witness :
    (Service.DecryptedValues shiftCrypto
        (Service.DecryptedValues shiftCrypto Cache.empty secretOld).cache secretOld).json =
      [("password", "12345")] ∧
    (Service.DecryptedValues shiftCrypto
        (Service.DecryptedValues shiftCrypto Cache.empty secretOld).cache secretOld).calls = [] :=
  ⟨(C9_decryptedValues_twice shiftCrypto Cache.empty secretOld).1.trans (by decide),
    (C9_decryptedValues_twice shiftCrypto Cache.empty secretOld).2.1.2 (Or.inr (by decide))⟩

/-- C9 (counterexample to the claim as stated): with a collaborator whose decryption fails, on
the empty cache, the first call of DecryptedValues returns the empty map and stores nothing, and
the second call calls DecryptJsonData again. -/
theorem C9_counterexample :
    (Service.DecryptedValues failingCrypto Cache.empty secretOld).json = [] ∧
    (Service.DecryptedValues failingCrypto
      (Service.DecryptedValues failingCrypto Cache.empty secretOld).cache secretOld).calls
        = [secretOld.SecureJsonData] := by
  decide

theorem cacheAfter_entry (crypto : SecretsService) (calls : List Secret) (id : Int)
    (item : cachedDecryptedJSON) (h : cacheAfter crypto calls id = some item) :
    ∃ s ∈ calls, s.Id = id ∧ s.Updated = item.updated ∧
      crypto.DecryptJsonData s.SecureJsonData = (item.json, none) := by
  suffices H : ∀ (calls : List Secret) (c0 : Cache),
      calls.foldl (fun cache s => (Service.DecryptedValues crypto cache s).cache) c0 id
        = some item →
      c0 id = some item ∨ ∃ s ∈ calls, s.Id = id ∧ s.Updated = item.updated ∧
        crypto.DecryptJsonData s.SecureJsonData = (item.json, none) by
    rcases H calls Cache.empty h with h0 | h1
    · simp [Cache.empty] at h0
    · exact h1
  intro calls
  induction calls with
  | nil => intro c0 h; exact Or.inl h
  | cons s rest ih =>
    intro c0 h
    rw [List.foldl_cons] at h
    rcases ih _ h with h1 | ⟨s', hs', h2⟩
    · by_cases hv : c0.validFor s
      · obtain ⟨it, e1, e2⟩ := hv
        rw [decryptedValues_of_valid crypto c0 s it e1 e2] at h1
        exact Or.inl h1
      · rw [decryptedValues_of_not_valid crypto c0 s hv] at h1
        rcases hd : crypto.DecryptJsonData s.SecureJsonData with ⟨json, _ | e⟩
        · rw [hd] at h1
          simp only at h1
          by_cases hid : id = s.Id
          · subst hid
            simp only [Function.update_same, Option.some.injEq] at h1
            subst h1
            exact Or.inr ⟨s, List.mem_cons_self _ _, rfl, rfl, hd⟩
          · rw [Function.update_noteq hid] at h1
            exact Or.inl h1
        · rw [hd] at h1
          exact Or.inl h1
    · exact Or.inr ⟨s', List.mem_cons_of_mem _ hs', h2⟩

/-- C10 (as amended): for every cache reached from the empty cache by calls of DecryptedValues
and every secret sc whose decryption succeeds, if every one of those calls that had the Id and
the Updated of sc also had the SecureJsonData of sc, then DecryptedValues(sc) equals
DecryptJsonData(sc.SecureJsonData). -/
theorem C10_cache_validity (crypto : SecretsService) (calls : List Secret) (sc : Secret)
    (hdec : (crypto.DecryptJsonData sc.SecureJsonData).2 = none)
    (hsame : ∀ s ∈ calls, s.Id = sc.Id → s.Updated = sc.Updated →
      s.SecureJsonData = sc.SecureJsonData) :
    (Service.DecryptedValues crypto (cacheAfter crypto calls) sc).json =
      (crypto.DecryptJsonData sc.SecureJsonData).1 := by
  by_cases hv : (cacheAfter crypto calls).validFor sc
  · obtain ⟨item, h1, h2⟩ := hv
    rw [decryptedValues_of_valid crypto _ sc item h1 h2]
    obtain ⟨s, hs, e1, e2, e3⟩ := cacheAfter_entry crypto calls sc.Id item h1
    rw [hsame s hs e1 (e2.trans h2.symm)] at e3
    rw [e3]
  · rw [decryptedValues_of_not_valid crypto _ sc hv]
    rcases hd : crypto.DecryptJsonData sc.SecureJsonData with ⟨json, _ | e⟩
    · rfl
    · rw [hd] at hdec
      cases hdec

/-- C10 as amended, at the cache reached by two calls on the same secret. -/
theorem C10_cache_validity_witness :
    (Service.DecryptedValues shiftCrypto (cacheAfter shiftCrypto [secretOld, secretOld])
      secretOld).json = (shiftCrypto.DecryptJsonData secretOld.SecureJsonData).1 :=
  C10_cache_validity shiftCrypto [secretOld, secretOld] secretOld (by decide) (by decide)

/-- C10 (counterexample to the claim as stated): after one call of DecryptedValues on a secret
with id 1 and updated 5, a call on a secret with the same id, the same updated and another
ciphertext, whose decryption succeeds, returns the plaintext of the first ciphertext. -/
theorem C10_counterexample :
    (shiftCrypto.DecryptJsonData secretNew.SecureJsonData) = ([("password", "678910")], none) ∧
    (Service.DecryptedValues shiftCrypto (cacheAfter shiftCrypto [secretOld]) secretNew).json =
      [("password", "12345")] := by
  decide

end SecretStore
